import Mathlib

/-!
# Hub control state and presentation loop (src/hub.c)

A shallow embedding of `hub.c`.

* The two `int` flags of `HubCtrlState` are integers; a flag is "true" when it
  is non-zero, exactly as the C conditions `!= 0` / `== 0` read it.
* `pthread_mutex_t lock` is modelled by atomicity: every region of the source
  between `pthread_mutex_lock` and `pthread_mutex_unlock` is one function
  application or one transition.
* `pthread_cond_t cond` is modelled by `Cond`: whether the render thread is
  blocked inside `pthread_cond_wait`, and a counter of the calls to
  `pthread_cond_signal` made so far.
* `runHub` is a transition system (`Pc`, `Sys`, `step`): the render thread
  advances one atomic segment per `Action.runHub`, and the other threads run
  `stopHub`, `showHubModules`, `hideHubModules` in between.
-/

namespace Lattice

/-! ## Data model (hub.c lines 15-24) -/

/-- The struct `HubCtrlState` of hub.c: two C `int` flags. -/
structure HubCtrlState where
  shouldShowAll : Int
  shouldQuit : Int
deriving DecidableEq, Repr

/-- The condition variable `hub->cond`. `waiting` says that the render thread is
blocked inside `pthread_cond_wait`; `signals` counts the calls of
`pthread_cond_signal` (a history counter, not read by the program). -/
structure Cond where
  waiting : Bool
  signals : Nat
deriving DecidableEq, Repr

/-- The struct `Hub` of hub.c. The mutex has no field: locked regions are atomic. -/
structure Hub where
  cond : Cond
  ctrlState : HubCtrlState
deriving DecidableEq, Repr

/-- The call `pthread_cond_signal(&hub->cond)`: unblocks the waiter if there is one;
has no lasting effect otherwise (a signal is not remembered). -/
def pthread_cond_signal (c : Cond) : Cond :=
  { waiting := false, signals := c.signals + 1 }

/-- The function `newHub` (lines 48-56): both flags start at 0, nobody waits. -/
def newHub : Hub :=
  { cond := { waiting := false, signals := 0 },
    ctrlState := { shouldShowAll := 0, shouldQuit := 0 } }

/-! ## Control operations (hub.c lines 229-259) -/

/-- The function `stopHub` (lines 229-237). -/
def stopHub (hub : Hub) : Hub :=
  if hub.ctrlState.shouldQuit == 0 then
    { cond := pthread_cond_signal hub.cond,
      ctrlState := { hub.ctrlState with shouldQuit := 1 } }
  else
    hub

/-- The function `showHubModules` (lines 239-247). -/
def showHubModules (hub : Hub) : Hub :=
  if hub.ctrlState.shouldShowAll == 0 then
    { cond := pthread_cond_signal hub.cond,
      ctrlState := { hub.ctrlState with shouldShowAll := 1 } }
  else
    hub

/-- The function `hideHubModules` (lines 249-259): the signal is commented out in the source. -/
def hideHubModules (hub : Hub) : Hub :=
  if hub.ctrlState.shouldShowAll != 0 then
    { cond := hub.cond,
      ctrlState := { hub.ctrlState with shouldShowAll := 0 } }
  else
    hub

/-- The locked copy `HubCtrlState ctrlState = hub->ctrlState` (lines 160-162). -/
def snapshot (hub : Hub) : HubCtrlState :=
  hub.ctrlState

/-- A visibility request: one call of `showHubModules` or of `hideHubModules`. -/
inductive VisCall where
  | show
  | hide
deriving DecidableEq, Repr

/-- Run one visibility request on the hub. -/
def VisCall.apply : VisCall → Hub → Hub
  | .show, hub => showHubModules hub
  | .hide, hub => hideHubModules hub

/-- Run a sequence of visibility requests, first call first. -/
def applyCalls : List VisCall → Hub → Hub
  | [], hub => hub
  | c :: cs, hub => applyCalls cs (c.apply hub)

/-- Count the calls of the sequence that found `shouldShowAll` false and left it true,
by comparing the flag before and after each call. -/
def risingEdges : List VisCall → Hub → Nat
  | [], _ => 0
  | c :: cs, hub =>
    (if hub.ctrlState.shouldShowAll = 0 ∧ (c.apply hub).ctrlState.shouldShowAll ≠ 0 then 1 else 0)
      + risingEdges cs (c.apply hub)

/-! ## The drawing context (the cairo and pango calls of runHub) -/

/-- A colour source as set by `cairo_set_source_rgba`; the channel values of the
source are the literals 0, 0.0, 0.5 and 1.0, kept here as rationals. -/
structure RGBA where
  r : ℚ
  g : ℚ
  b : ℚ
  a : ℚ
deriving DecidableEq, Repr

/-- The two compositing operators that occur: `CAIRO_OPERATOR_SOURCE` replaces the
destination with the source, `CAIRO_OPERATOR_OVER` (the default of a new context)
blends the source over the destination. -/
inductive cairo_operator_t where
  | CAIRO_OPERATOR_SOURCE
  | CAIRO_OPERATOR_OVER
deriving DecidableEq, Repr

/-- The part of the cairo graphics state that `cairo_save` and `cairo_restore` keep. -/
structure GState where
  source : RGBA
  operator : cairo_operator_t
deriving DecidableEq, Repr

/-- The pango layout built at lines 148-155: family, absolute size in pixels, text. -/
structure Layout where
  family : String
  size : Nat
  text : String
deriving DecidableEq, Repr

/-- One paint operation that reaches the surface. -/
inductive DrawOp where
  | fill (source : RGBA) (operator : cairo_operator_t)
  | text (source : RGBA) (operator : cairo_operator_t) (pos : Option (Int × Int)) (layout : Layout)
deriving DecidableEq, Repr

/-- The cairo context `cr`: current graphics state, the stack of saved states, the
current point, and the operations painted so far (oldest first). -/
structure Cairo where
  gstate : GState
  saved : List GState
  point : Option (Int × Int)
  painted : List DrawOp
deriving DecidableEq, Repr

/-- The call `cairo_create`: opaque black source, operator OVER, nothing painted. -/
def cairo_create : Cairo :=
  { gstate := { source := { r := 0, g := 0, b := 0, a := 1 },
                operator := cairo_operator_t.CAIRO_OPERATOR_OVER },
    saved := [], point := none, painted := [] }

/-- The call `cairo_save`. -/
def cairo_save (cr : Cairo) : Cairo :=
  { cr with saved := cr.gstate :: cr.saved }

/-- The call `cairo_restore`. -/
def cairo_restore (cr : Cairo) : Cairo :=
  match cr.saved with
  | [] => cr
  | g :: rest => { cr with gstate := g, saved := rest }

/-- The call `cairo_set_source_rgba`. -/
def cairo_set_source_rgba (r g b a : ℚ) (cr : Cairo) : Cairo :=
  { cr with gstate := { cr.gstate with source := { r := r, g := g, b := b, a := a } } }

/-- The call `cairo_set_source_rgb`: an opaque colour. -/
def cairo_set_source_rgb (r g b : ℚ) (cr : Cairo) : Cairo :=
  cairo_set_source_rgba r g b 1 cr

/-- The call `cairo_set_operator`. -/
def cairo_set_operator (op : cairo_operator_t) (cr : Cairo) : Cairo :=
  { cr with gstate := { cr.gstate with operator := op } }

/-- The call `cairo_paint`: paints the current source over the whole surface. -/
def cairo_paint (cr : Cairo) : Cairo :=
  { cr with painted := cr.painted ++ [DrawOp.fill cr.gstate.source cr.gstate.operator] }

/-- The call `cairo_move_to`. -/
def cairo_move_to (x y : Int) (cr : Cairo) : Cairo :=
  { cr with point := some (x, y) }

/-- The call `pango_cairo_show_layout`: draws the layout at the current point. -/
def pango_cairo_show_layout (layout : Layout) (cr : Cairo) : Cairo :=
  { cr with painted :=
      cr.painted ++ [DrawOp.text cr.gstate.source cr.gstate.operator cr.point layout] }

/-- The layout `fontLayout` of lines 148-155: "monaco", 32 pixels, text "Good". -/
def fontLayout : Layout :=
  { family := "monaco", size := 32, text := "Good" }

/-- The render branches of one iteration (lines 169-188), run on the local copy
`ctrlState`. -/
def render (ctrlState : HubCtrlState) (cr : Cairo) : Cairo :=
  if ctrlState.shouldShowAll == 0 then
    cairo_restore (cairo_paint (cairo_set_operator cairo_operator_t.CAIRO_OPERATOR_SOURCE
      (cairo_set_source_rgba 0 0 0 0 (cairo_save cr))))
  else
    pango_cairo_show_layout fontLayout (cairo_move_to 10 10 (cairo_set_source_rgb 0 0 1
      (cairo_restore (cairo_paint (cairo_set_operator cairo_operator_t.CAIRO_OPERATOR_SOURCE
        (cairo_set_source_rgba 1 0 0 (1/2) (cairo_save cr)))))))

/-- The handles that `runHub` acquires (lines 68-153). -/
inductive XResource where
  | display
  | colormap
  | window
  | cairoSurface
  | cairoContext
  | fontInfo
  | fontLayout
deriving DecidableEq, Repr

/-- What the X server answers during setup: whether `XOpenDisplay` returns a
connection, and whether `XMatchVisualInfo` finds a 32-bit TrueColor visual. -/
structure XEnv where
  displayOpens : Bool
  visualMatches : Bool
deriving DecidableEq, Repr

/-- The event type `KeyPress` of X11/X.h. -/
def KeyPress : Int := 2

/-- The event type `Expose` of X11/X.h. -/
def Expose : Int := 12

/-- The call `XCloseDisplay`: closes the connection, and with it the server destroys
the windows and colormaps this client created. -/
def XCloseDisplay (held : List XResource) : List XResource :=
  held.filter fun r =>
    r != XResource.display && r != XResource.window && r != XResource.colormap

/-- The teardown of lines 219-225, on the list of handles still held. -/
def teardown (held : List XResource) : List XResource :=
  let h1 := held.erase XResource.fontLayout      -- g_object_unref(fontLayout)
  let h2 := h1.erase XResource.fontInfo          -- pango_font_description_free(fontInfo)
  let h3 := h2.erase XResource.cairoContext      -- cairo_destroy(cr)
  let h4 := h3.erase XResource.cairoSurface      -- cairo_surface_destroy(cs)
  let h5 := h4.erase XResource.window            -- XUnmapWindow, XDestroyWindow
  XCloseDisplay h5

/-- All handles held once setup (lines 68-155) has succeeded, in order of acquisition. -/
def setupResources : List XResource :=
  [XResource.display, XResource.colormap, XResource.window, XResource.cairoSurface,
   XResource.cairoContext, XResource.fontInfo, XResource.fontLayout]

/-! ## runHub as a transition system -/

/-- Where the render thread stands in `runHub`. -/
inductive Pc where
  /-- Line 68: `runHub` has been called, nothing done yet. -/
  | entry
  /-- Line 160: at the top of the `while`, about to take the locked snapshot. -/
  | loopTop
  /-- Line 165: holds the local copy, about to test it and to render. -/
  | quitCheck (ctrlState : HubCtrlState)
  /-- Line 193: has rendered, about to test the copy and to enter the wait. -/
  | waitCheck (ctrlState : HubCtrlState)
  /-- Line 195: inside `pthread_cond_wait`. -/
  | condWait
  /-- Line 205: about to call `XNextEvent`. -/
  | nextEvent
  /-- The thread has left `runHub` with this status. -/
  | returned (status : Int)
deriving DecidableEq, Repr

/-- The whole system: the shared hub, the render thread's position and locals, and
three histories that the program itself does not read (`snapshots`, `events`,
`stdout`). -/
structure Sys where
  env : XEnv
  hub : Hub
  pc : Pc
  cr : Cairo
  held : List XResource
  snapshots : List HubCtrlState
  events : List Int
  stdout : List String
deriving DecidableEq, Repr

/-- A hub fresh from `newHub`, with `runHub` called but not yet started. -/
def Sys.init (env : XEnv) : Sys :=
  { env := env, hub := newHub, pc := Pc.entry, cr := cairo_create, held := [],
    snapshots := [], events := [], stdout := [] }

/-- The function `runHub` (lines 65-227), one atomic segment of the render thread at
a time. `e` is the type of the event that `XNextEvent` delivers if the segment is
the one that calls it. The segments are: setup with its two failure returns (lines
68-155); the locked snapshot (160-162); the quit check, with the teardown and
`return 0` (165-167, 219-226), or else the render branches (170-188); the test of
the local copy and the entry into `pthread_cond_wait` (193-195); the return from
the wait once released (195-196); `XNextEvent` and the `KeyPress` break (204-216). -/
def runHubStep (e : Int) (s : Sys) : Sys :=
  match s.pc with
  | Pc.entry =>
    if !s.env.displayOpens then
      { s with pc := Pc.returned 1,
               stdout := s.stdout ++ ["Failed to connect to X. Terminating.\n"] }
    else if !s.env.visualMatches then
      { s with pc := Pc.returned 1, held := s.held ++ [XResource.display],
               stdout := s.stdout ++ ["No 32-bit visual available from X. Terminating.\n"] }
    else
      { s with pc := Pc.loopTop, held := s.held ++ setupResources, cr := cairo_create }
  | Pc.loopTop =>
    { s with pc := Pc.quitCheck (snapshot s.hub),
             snapshots := s.snapshots ++ [snapshot s.hub] }
  | Pc.quitCheck ctrlState =>
    if ctrlState.shouldQuit != 0 then
      { s with pc := Pc.returned 0, held := teardown s.held }
    else
      { s with pc := Pc.waitCheck ctrlState, cr := render ctrlState s.cr }
  | Pc.waitCheck ctrlState =>
    if ctrlState.shouldShowAll == 0 then
      { s with pc := Pc.condWait, hub := { s.hub with cond := { s.hub.cond with waiting := true } } }
    else
      { s with pc := Pc.nextEvent }
  | Pc.condWait =>
    if s.hub.cond.waiting then s else { s with pc := Pc.nextEvent }
  | Pc.nextEvent =>
    if e == KeyPress then
      { s with pc := Pc.returned 0, held := teardown s.held, events := s.events ++ [e] }
    else
      { s with pc := Pc.loopTop, events := s.events ++ [e] }
  | Pc.returned _ => s

/-- What can happen next: another thread runs one control operation, the render
thread runs its next segment, or `pthread_cond_wait` wakes up spuriously. -/
inductive Action where
  | stopHub
  | showHubModules
  | hideHubModules
  | runHub (e : Int)
  | spuriousWake
deriving DecidableEq, Repr

/-- One transition of the system. -/
def step (a : Action) (s : Sys) : Sys :=
  match a with
  | Action.stopHub => { s with hub := stopHub s.hub }
  | Action.showHubModules => { s with hub := showHubModules s.hub }
  | Action.hideHubModules => { s with hub := hideHubModules s.hub }
  | Action.runHub e => runHubStep e s
  | Action.spuriousWake => { s with hub := { s.hub with cond := { s.hub.cond with waiting := false } } }

/-- Run a schedule, first action first. -/
def run : List Action → Sys → Sys
  | [], s => s
  | a :: as, s => run as (step a s)

/-- The render thread is blocked on the condition variable. -/
def Sys.blocked (s : Sys) : Prop :=
  s.pc = Pc.condWait ∧ s.hub.cond.waiting = true

instance (s : Sys) : Decidable s.blocked :=
  inferInstanceAs (Decidable (s.pc = Pc.condWait ∧ s.hub.cond.waiting = true))

/-- The number of render segments in a schedule. -/
def runHubSegments : List Action → Nat
  | [] => 0
  | Action.runHub _ :: as => runHubSegments as + 1
  | _ :: as => runHubSegments as

/-- The number of render segments between a position and the return from `runHub`
when every snapshot still to be taken has `shouldQuit` true (positions before the
wait are given 5, they are not on that path). -/
def segmentsToReturn : Pc → Nat
  | Pc.condWait => 4
  | Pc.nextEvent => 3
  | Pc.loopTop => 2
  | Pc.quitCheck _ => 1
  | Pc.returned _ => 0
  | Pc.entry => 5
  | Pc.waitCheck _ => 5

/-- The states on the way out of the loop once quit is latched and the wait is over:
the live `shouldQuit` is true, the painted operations are `painted0`, and the thread
is released from the wait, at `XNextEvent`, at the loop top, at the quit check with
a copy that has `shouldQuit` true (all holding `held0`), or has returned 0 after
the teardown of `held0`. -/
def quitPhase (painted0 : List DrawOp) (held0 : List XResource) (t : Sys) : Prop :=
  t.hub.ctrlState.shouldQuit ≠ 0 ∧ t.cr.painted = painted0 ∧
  match t.pc with
  | Pc.condWait => t.hub.cond.waiting = false ∧ t.held = held0
  | Pc.nextEvent => t.held = held0
  | Pc.loopTop => t.held = held0
  | Pc.quitCheck c => c.shouldQuit ≠ 0 ∧ t.held = held0
  | Pc.returned st => st = 0 ∧ t.held = teardown held0
  | Pc.entry => False
  | Pc.waitCheck _ => False

/-- What holds of the histories at each position of a run that started at `Sys.init`:
at the quit check the local copy is the last snapshot taken; after a return with
status 0 either the last snapshot had `shouldQuit` true or the last event was a
`KeyPress`. -/
def loopInv (s : Sys) : Prop :=
  match s.pc with
  | Pc.quitCheck c => s.snapshots.getLast? = some c
  | Pc.returned st => st = 0 →
      ((∃ c, s.snapshots.getLast? = some c ∧ c.shouldQuit ≠ 0) ∨
        s.events.getLast? = some KeyPress)
  | _ => True

/-! ## Control operations: lemmas -/

theorem applyCalls_append (xs ys : List VisCall) (hub : Hub) :
    applyCalls (xs ++ ys) hub = applyCalls ys (applyCalls xs hub) := by
  induction xs generalizing hub with
  | nil => rfl
  | cons c cs ih => simp [applyCalls, ih]

theorem risingEdges_append (xs ys : List VisCall) (hub : Hub) :
    risingEdges (xs ++ ys) hub = risingEdges xs hub + risingEdges ys (applyCalls xs hub) := by
  induction xs generalizing hub with
  | nil => simp [risingEdges, applyCalls]
  | cons c cs ih => simp [risingEdges, applyCalls, ih, Nat.add_assoc]

theorem VisCall.apply_idem (c : VisCall) (hub : Hub) : c.apply (c.apply hub) = c.apply hub := by
  cases c
  · by_cases h : hub.ctrlState.shouldShowAll = 0 <;> simp [VisCall.apply, showHubModules, h]
  · by_cases h : hub.ctrlState.shouldShowAll = 0 <;> simp [VisCall.apply, hideHubModules, h]

theorem VisCall.apply_shouldQuit (c : VisCall) (hub : Hub) :
    (c.apply hub).ctrlState.shouldQuit = hub.ctrlState.shouldQuit := by
  cases c
  · by_cases h : hub.ctrlState.shouldShowAll = 0 <;> simp [VisCall.apply, showHubModules, h]
  · by_cases h : hub.ctrlState.shouldShowAll = 0 <;> simp [VisCall.apply, hideHubModules, h]

theorem VisCall.apply_shouldShowAll (c : VisCall) (hub : Hub) :
    (c.apply hub).ctrlState.shouldShowAll ≠ 0 ↔ c = VisCall.show := by
  cases c
  · by_cases h : hub.ctrlState.shouldShowAll = 0 <;> simp [VisCall.apply, showHubModules, h]
  · by_cases h : hub.ctrlState.shouldShowAll = 0 <;> simp [VisCall.apply, hideHubModules, h]

theorem VisCall.apply_signals (c : VisCall) (hub : Hub) :
    (c.apply hub).cond.signals = hub.cond.signals + risingEdges [c] hub := by
  cases c
  · by_cases h : hub.ctrlState.shouldShowAll = 0 <;>
      simp [VisCall.apply, showHubModules, risingEdges, pthread_cond_signal, h]
  · by_cases h : hub.ctrlState.shouldShowAll = 0 <;>
      simp [VisCall.apply, hideHubModules, risingEdges, h]

theorem applyCalls_shouldQuit (calls : List VisCall) (hub : Hub) :
    (applyCalls calls hub).ctrlState.shouldQuit = hub.ctrlState.shouldQuit := by
  induction calls generalizing hub with
  | nil => rfl
  | cons c cs ih => simp [applyCalls, ih, VisCall.apply_shouldQuit]

theorem applyCalls_signals (calls : List VisCall) (hub : Hub) :
    (applyCalls calls hub).cond.signals = hub.cond.signals + risingEdges calls hub := by
  induction calls generalizing hub with
  | nil => simp [applyCalls, risingEdges]
  | cons c cs ih =>
    have h := VisCall.apply_signals c hub
    simp only [risingEdges, Nat.add_zero] at h
    simp only [applyCalls, risingEdges, ih, h]
    omega

/-! ## Control operations: the contracts -/

/-- C1: for every hub, after `showHubModules` the flag `shouldShowAll` is true and
`shouldQuit` is unchanged; `pthread_cond_signal` is called (once) exactly when
`shouldShowAll` was false before, and otherwise the condition variable is untouched;
a second consecutive call changes nothing and signals nothing. -/
theorem showHubModules_contract (hub : Hub) :
    (showHubModules hub).ctrlState.shouldShowAll ≠ 0 ∧
    (showHubModules hub).ctrlState.shouldQuit = hub.ctrlState.shouldQuit ∧
    ((showHubModules hub).cond.signals = hub.cond.signals + 1 ↔
      hub.ctrlState.shouldShowAll = 0) ∧
    ((showHubModules hub).cond = hub.cond ↔ hub.ctrlState.shouldShowAll ≠ 0) ∧
    (hub.ctrlState.shouldShowAll = 0 →
      (showHubModules hub).cond = pthread_cond_signal hub.cond) ∧
    showHubModules (showHubModules hub) = showHubModules hub := by
  by_cases h : hub.ctrlState.shouldShowAll = 0
  · simp [showHubModules, h, pthread_cond_signal]
    intro hc
    have := congrArg Cond.signals hc
    simp at this
  · simp [showHubModules, h]

/-- Witness for C1 at a fresh hub: the flag is set, and the second call is a no-op. -/
theorem showHubModules_contract_witness :
    (showHubModules newHub).ctrlState.shouldShowAll ≠ 0 ∧
    showHubModules (showHubModules newHub) = showHubModules newHub :=
  ⟨(showHubModules_contract newHub).1, (showHubModules_contract newHub).2.2.2.2.2⟩

/-- C2: for every hub, after `hideHubModules` the flag `shouldShowAll` is false and
`shouldQuit` is unchanged, and the condition variable is untouched in every case: no
signal is counted and no waiter is released. -/
theorem hideHubModules_contract (hub : Hub) :
    (hideHubModules hub).ctrlState.shouldShowAll = 0 ∧
    (hideHubModules hub).ctrlState.shouldQuit = hub.ctrlState.shouldQuit ∧
    (hideHubModules hub).cond = hub.cond ∧
    (hideHubModules hub).cond.signals = hub.cond.signals := by
  by_cases h : hub.ctrlState.shouldShowAll = 0 <;> simp [hideHubModules, h]

/-- C3: for every hub, after `stopHub` the flag `shouldQuit` is true and
`shouldShowAll` is unchanged; `pthread_cond_signal` is called (once) exactly when
`shouldQuit` was false before, and otherwise the condition variable is untouched;
calling it again once quit is requested changes nothing and signals nothing. -/
theorem stopHub_contract (hub : Hub) :
    (stopHub hub).ctrlState.shouldQuit ≠ 0 ∧
    (stopHub hub).ctrlState.shouldShowAll = hub.ctrlState.shouldShowAll ∧
    ((stopHub hub).cond.signals = hub.cond.signals + 1 ↔ hub.ctrlState.shouldQuit = 0) ∧
    ((stopHub hub).cond = hub.cond ↔ hub.ctrlState.shouldQuit ≠ 0) ∧
    (hub.ctrlState.shouldQuit = 0 → (stopHub hub).cond = pthread_cond_signal hub.cond) ∧
    (hub.ctrlState.shouldQuit ≠ 0 → stopHub hub = hub) ∧
    stopHub (stopHub hub) = stopHub hub := by
  by_cases h : hub.ctrlState.shouldQuit = 0
  · simp [stopHub, h, pthread_cond_signal]
    intro hc
    have := congrArg Cond.signals hc
    simp at this
  · simp [stopHub, h]

/-- C4: for every non-empty sequence of show/hide calls run on any hub before the
snapshot is taken, the snapshot has `shouldShowAll` true exactly when the last call
was a show, `shouldQuit` is as before, the number of signals sent by the sequence is
the number of calls that turned `shouldShowAll` from false to true, and doubling any
call of a sequence changes neither the resulting hub (signal count included) nor the
number of such transitions. -/
theorem applyCalls_snapshot (calls : List VisCall) (hne : calls ≠ []) (hub : Hub) :
    ((snapshot (applyCalls calls hub)).shouldShowAll ≠ 0 ↔
      calls.getLast hne = VisCall.show) ∧
    (snapshot (applyCalls calls hub)).shouldQuit = hub.ctrlState.shouldQuit ∧
    (applyCalls calls hub).cond.signals = hub.cond.signals + risingEdges calls hub ∧
    (∀ (c : VisCall) (pre post : List VisCall),
      applyCalls (pre ++ c :: c :: post) hub = applyCalls (pre ++ c :: post) hub ∧
      risingEdges (pre ++ c :: c :: post) hub = risingEdges (pre ++ c :: post) hub) := by
  refine ⟨?_, applyCalls_shouldQuit calls hub, applyCalls_signals calls hub, ?_⟩
  · obtain ⟨init, last, rfl⟩ : ∃ init last, calls = init ++ [last] :=
      ⟨calls.dropLast, calls.getLast hne, (List.dropLast_append_getLast hne).symm⟩
    simp only [snapshot, applyCalls_append, applyCalls, List.getLast_append_singleton]
    exact VisCall.apply_shouldShowAll last _
  · intro c pre post
    constructor
    · simp only [applyCalls_append, applyCalls, VisCall.apply_idem]
    · simp only [risingEdges_append, risingEdges, applyCalls, VisCall.apply_idem]
      have h : ¬ ((c.apply (applyCalls pre hub)).ctrlState.shouldShowAll = 0 ∧
          (c.apply (applyCalls pre hub)).ctrlState.shouldShowAll ≠ 0) := fun h => h.2 h.1
      simp only [h, if_false, Nat.zero_add]

/-- Witness for C4: show, show, hide, show on a fresh hub ends shown, with two signals. -/
theorem applyCalls_snapshot_witness :
    ((snapshot (applyCalls [VisCall.show, VisCall.show, VisCall.hide, VisCall.show]
        newHub)).shouldShowAll ≠ 0 ↔
      [VisCall.show, VisCall.show, VisCall.hide, VisCall.show].getLast (by simp)
        = VisCall.show) ∧
    (applyCalls [VisCall.show, VisCall.show, VisCall.hide, VisCall.show] newHub).cond.signals
      = 2 :=
  ⟨(applyCalls_snapshot [VisCall.show, VisCall.show, VisCall.hide, VisCall.show] (by simp)
      newHub).1, by decide⟩

/-! ## The transition system: lemmas -/

theorem run_append (xs ys : List Action) (s : Sys) :
    run (xs ++ ys) s = run ys (run xs s) := by
  induction xs generalizing s with
  | nil => rfl
  | cons a as ih => simp [run, ih]

theorem stopHub_shouldQuit_ne (hub : Hub) : (stopHub hub).ctrlState.shouldQuit ≠ 0 := by
  by_cases h : hub.ctrlState.shouldQuit = 0 <;> simp [stopHub, h]

theorem showHubModules_shouldQuit (hub : Hub) :
    (showHubModules hub).ctrlState.shouldQuit = hub.ctrlState.shouldQuit := by
  by_cases h : hub.ctrlState.shouldShowAll = 0 <;> simp [showHubModules, h]

theorem hideHubModules_shouldQuit (hub : Hub) :
    (hideHubModules hub).ctrlState.shouldQuit = hub.ctrlState.shouldQuit := by
  by_cases h : hub.ctrlState.shouldShowAll = 0 <;> simp [hideHubModules, h]

theorem runHubStep_returned (e : Int) (s : Sys) (st : Int) (h : s.pc = Pc.returned st) :
    runHubStep e s = s := by
  simp [runHubStep, h]

theorem step_returned (a : Action) (s : Sys) (st : Int) (h : s.pc = Pc.returned st) :
    (step a s).pc = Pc.returned st ∧ (step a s).held = s.held ∧ (step a s).cr = s.cr ∧
    (step a s).snapshots = s.snapshots := by
  cases a with
  | runHub e => simp [step, runHubStep_returned e s st h, h]
  | _ => simp [step, h]

theorem run_returned (acts : List Action) (s : Sys) (st : Int) (h : s.pc = Pc.returned st) :
    (run acts s).pc = Pc.returned st ∧ (run acts s).held = s.held ∧ (run acts s).cr = s.cr ∧
    (run acts s).snapshots = s.snapshots := by
  induction acts generalizing s with
  | nil => simp [run, h]
  | cons a as ih =>
    obtain ⟨h1, h2, h3, h4⟩ := step_returned a s st h
    obtain ⟨k1, k2, k3, k4⟩ := ih (step a s) h1
    exact ⟨k1, k2.trans h2, k3.trans h3, k4.trans h4⟩

theorem runHubStep_ctrlState (e : Int) (s : Sys) :
    (runHubStep e s).hub.ctrlState = s.hub.ctrlState := by
  unfold runHubStep
  split <;> (try split) <;> (try split) <;> rfl

theorem step_shouldQuit_ne (a : Action) (s : Sys) (hq : s.hub.ctrlState.shouldQuit ≠ 0) :
    (step a s).hub.ctrlState.shouldQuit ≠ 0 := by
  cases a with
  | stopHub => exact stopHub_shouldQuit_ne s.hub
  | showHubModules => simpa [step, showHubModules_shouldQuit] using hq
  | hideHubModules => simpa [step, hideHubModules_shouldQuit] using hq
  | runHub e => simpa [step, runHubStep_ctrlState] using hq
  | spuriousWake => simpa [step] using hq

theorem runHubStep_snapshots (e : Int) (s : Sys) :
    (runHubStep e s).snapshots = s.snapshots ∨
    (runHubStep e s).snapshots = s.snapshots ++ [s.hub.ctrlState] := by
  unfold runHubStep
  split <;> (try split) <;> (try split) <;> simp [snapshot]

theorem step_snapshots (a : Action) (s : Sys) :
    (step a s).snapshots = s.snapshots ∨
    (step a s).snapshots = s.snapshots ++ [s.hub.ctrlState] := by
  cases a with
  | runHub e => exact runHubStep_snapshots e s
  | _ => exact Or.inl rfl

/-! ## C5: the quit latch -/

/-- C5: a hub from `newHub` has both flags false; from any state in which
`shouldQuit` is true, every schedule of `stopHub`, `showHubModules`,
`hideHubModules`, render segments and spurious wake-ups ends in a state in which
`shouldQuit` is still true, and every snapshot taken along the way has `shouldQuit`
true. -/
theorem shouldQuit_latch (s : Sys) (acts : List Action)
    (hq : s.hub.ctrlState.shouldQuit ≠ 0) :
    newHub.ctrlState = { shouldShowAll := 0, shouldQuit := 0 } ∧
    (run acts s).hub.ctrlState.shouldQuit ≠ 0 ∧
    ∃ taken, (run acts s).snapshots = s.snapshots ++ taken ∧
      ∀ c ∈ taken, c.shouldQuit ≠ 0 := by
  refine ⟨rfl, ?_⟩
  induction acts generalizing s with
  | nil => exact ⟨hq, [], by simp [run], by simp⟩
  | cons a as ih =>
    obtain ⟨h1, taken, h2, h3⟩ := ih (step a s) (step_shouldQuit_ne a s hq)
    refine ⟨h1, ?_⟩
    rcases step_snapshots a s with h | h
    · exact ⟨taken, by rw [run, h2, h], h3⟩
    · refine ⟨s.hub.ctrlState :: taken, by rw [run, h2, h]; simp, ?_⟩
      intro c hc
      rcases List.mem_cons.mp hc with rfl | hc
      · exact hq
      · exact h3 c hc

/-- Witness for C5: quit, then show, hide and three render segments on a running
hub; the flag is still set. -/
theorem shouldQuit_latch_witness :
    (run [Action.showHubModules, Action.hideHubModules, Action.runHub Expose,
          Action.runHub Expose, Action.runHub Expose]
        (step Action.stopHub (Sys.init { displayOpens := true, visualMatches := true }))
      ).hub.ctrlState.shouldQuit ≠ 0 :=
  (shouldQuit_latch (step Action.stopHub (Sys.init { displayOpens := true, visualMatches := true }))
    [Action.showHubModules, Action.hideHubModules, Action.runHub Expose,
     Action.runHub Expose, Action.runHub Expose] (by decide)).2.1

/-! ## C6: the wait against the live flag -/

/-- C6 (evaluation of the code at the failing schedule): on a fresh hub with a
working X server the render thread sets up, takes its snapshot (both flags 0) and
paints the transparent frame; `showHubModules` then sets the live flag and its
signal finds nobody waiting; the render thread then enters `pthread_cond_wait`.
The thread is now blocked while the live `shouldShowAll` is 1, and a further
`showHubModules` neither signals nor unblocks it. -/
theorem blocked_while_shouldShowAll :
    (run [Action.runHub Expose, Action.runHub Expose, Action.runHub Expose,
          Action.showHubModules, Action.runHub Expose]
        (Sys.init { displayOpens := true, visualMatches := true })).blocked ∧
    (run [Action.runHub Expose, Action.runHub Expose, Action.runHub Expose,
          Action.showHubModules, Action.runHub Expose]
        (Sys.init { displayOpens := true, visualMatches := true })).hub.ctrlState.shouldShowAll
      = 1 ∧
    (run [Action.runHub Expose, Action.runHub Expose, Action.runHub Expose,
          Action.showHubModules, Action.runHub Expose, Action.showHubModules,
          Action.runHub Expose]
        (Sys.init { displayOpens := true, visualMatches := true })).blocked ∧
    (run [Action.runHub Expose, Action.runHub Expose, Action.runHub Expose,
          Action.showHubModules, Action.runHub Expose, Action.showHubModules,
          Action.runHub Expose]
        (Sys.init { displayOpens := true, visualMatches := true })).hub.cond.signals = 1 := by
  decide

/-! ## C9: setup failures -/

/-- C9 (evaluation of the code at the failing input): when `XOpenDisplay` succeeds
and `XMatchVisualInfo` finds no visual, `runHub` returns 1 without taking a snapshot
or painting, and the display connection is still held at the return and after any
further schedule. -/
theorem runHub_visual_failure_keeps_display (e : Int) (acts : List Action) :
    (run (Action.runHub e :: acts)
      (Sys.init { displayOpens := true, visualMatches := false })).pc = Pc.returned 1 ∧
    (run (Action.runHub e :: acts)
      (Sys.init { displayOpens := true, visualMatches := false })).held
        = [XResource.display] ∧
    (run (Action.runHub e :: acts)
      (Sys.init { displayOpens := true, visualMatches := false })).snapshots = [] ∧
    (run (Action.runHub e :: acts)
      (Sys.init { displayOpens := true, visualMatches := false })).cr.painted = [] := by
  have h : (step (Action.runHub e)
      (Sys.init { displayOpens := true, visualMatches := false })).pc = Pc.returned 1 := by
    simp [step, runHubStep, Sys.init]
  obtain ⟨h1, h2, h3, h4⟩ := run_returned acts _ 1 h
  refine ⟨h1, ?_, ?_, ?_⟩
  · rw [run, h2]; simp [step, runHubStep, Sys.init]
  · rw [run, h4]; simp [step, runHubStep, Sys.init]
  · rw [run, h3]; simp [step, runHubStep, Sys.init, cairo_create]

/-! ## C10: what an iteration paints -/

theorem runHubStep_blocked (e : Int) (s : Sys) (h : s.blocked) : runHubStep e s = s := by
  obtain ⟨h1, h2⟩ := h
  simp [runHubStep, h1, h2]

theorem run_render_blocked (es : List Int) (s : Sys) (h : s.blocked) :
    run (es.map Action.runHub) s = s := by
  induction es with
  | nil => rfl
  | cons e es ih => simp [run, step, runHubStep_blocked e s h, ih]

theorem showHubModules_waiting (hub : Hub) (h : hub.cond.waiting = false) :
    (showHubModules hub).cond.waiting = false := by
  by_cases k : hub.ctrlState.shouldShowAll = 0 <;>
    simp [showHubModules, k, h, pthread_cond_signal]

theorem stopHub_of_shouldQuit (hub : Hub) (h : hub.ctrlState.shouldQuit ≠ 0) :
    stopHub hub = hub := by
  simp [stopHub, h]

theorem hideHubModules_cond (hub : Hub) : (hideHubModules hub).cond = hub.cond := by
  by_cases k : hub.ctrlState.shouldShowAll = 0 <;> simp [hideHubModules, k]

theorem quitPhase_step (P : List DrawOp) (H : List XResource) (a : Action) (t : Sys)
    (h : quitPhase P H t) :
    quitPhase P H (step a t) ∧
    segmentsToReturn (step a t).pc ≤ segmentsToReturn t.pc ∧
    ((∃ e, a = Action.runHub e) →
      segmentsToReturn (step a t).pc ≤ segmentsToReturn t.pc - 1) := by
  obtain ⟨hq, hp, hpc⟩ := h
  cases a with
  | stopHub =>
    have : step Action.stopHub t = t := by
      simp [step, stopHub_of_shouldQuit t.hub hq]
    rw [this]
    exact ⟨⟨hq, hp, hpc⟩, le_refl _, fun ⟨e, he⟩ => by cases he⟩
  | showHubModules =>
    refine ⟨⟨?_, hp, ?_⟩, le_refl _, fun ⟨e, he⟩ => by cases he⟩
    · simpa [step, showHubModules_shouldQuit] using hq
    · cases hk : t.pc <;> simp only [step, hk] at hpc ⊢ <;> try exact hpc
      exact ⟨showHubModules_waiting t.hub hpc.1, hpc.2⟩
  | hideHubModules =>
    refine ⟨⟨?_, hp, ?_⟩, le_refl _, fun ⟨e, he⟩ => by cases he⟩
    · simpa [step, hideHubModules_shouldQuit] using hq
    · cases hk : t.pc <;> simp only [step, hk] at hpc ⊢ <;> try exact hpc
      exact ⟨by rw [hideHubModules_cond]; exact hpc.1, hpc.2⟩
  | spuriousWake =>
    refine ⟨⟨hq, hp, ?_⟩, le_refl _, fun ⟨e, he⟩ => by cases he⟩
    cases hk : t.pc <;> simp only [step, hk] at hpc ⊢ <;> try exact hpc
    exact ⟨trivial, hpc.2⟩
  | runHub e =>
    cases hk : t.pc with
    | entry => simp [hk] at hpc
    | waitCheck c => simp [hk] at hpc
    | loopTop =>
      simp only [hk] at hpc
      simp [step, runHubStep, hk, quitPhase, segmentsToReturn, hq, hp, hpc, snapshot]
    | quitCheck c =>
      simp only [hk] at hpc
      simp [step, runHubStep, hk, quitPhase, segmentsToReturn, hq, hp, hpc]
    | condWait =>
      simp only [hk] at hpc
      simp [step, runHubStep, hk, quitPhase, segmentsToReturn, hq, hp, hpc]
    | nextEvent =>
      simp only [hk] at hpc
      by_cases he : e = KeyPress <;>
        simp [step, runHubStep, hk, quitPhase, segmentsToReturn, hq, hp, hpc, he]
    | returned st =>
      simp only [hk] at hpc
      simp [step, runHubStep, hk, quitPhase, segmentsToReturn, hq, hp, hpc]

theorem quitPhase_run (P : List DrawOp) (H : List XResource) (acts : List Action) (t : Sys)
    (h : quitPhase P H t) :
    quitPhase P H (run acts t) ∧
    segmentsToReturn (run acts t).pc ≤ segmentsToReturn t.pc - runHubSegments acts := by
  induction acts generalizing t with
  | nil => exact ⟨h, by simp [run, runHubSegments]⟩
  | cons a as ih =>
    obtain ⟨h1, h2, h3⟩ := quitPhase_step P H a t h
    obtain ⟨k1, k2⟩ := ih (step a t) h1
    refine ⟨k1, ?_⟩
    cases a with
    | runHub e =>
      have := h3 ⟨e, rfl⟩
      simp only [run, runHubSegments]
      omega
    | _ =>
      simp only [run, runHubSegments]
      omega

theorem quitPhase_returned (P : List DrawOp) (H : List XResource) (t : Sys)
    (h : quitPhase P H t) (hr : segmentsToReturn t.pc = 0) :
    t.pc = Pc.returned 0 ∧ t.cr.painted = P ∧ t.held = teardown H := by
  obtain ⟨_, hp, hpc⟩ := h
  cases hk : t.pc <;> simp [hk, segmentsToReturn] at hr hpc
  exact ⟨by rw [hpc.1], hp, hpc.2⟩

/-- C7 (evaluation of the code at the failing schedule): on a fresh hub the render
thread takes its snapshot (both flags 0) and paints the transparent frame; `stopHub`
then latches quit and its signal finds nobody waiting; the thread then enters
`pthread_cond_wait` on its stale copy. The thread is blocked with quit requested; a
further `stopHub` sends no signal and leaves it blocked, and no number of render
segments moves it, so `runHub` does not return. -/
theorem stopHub_on_latched_quit_does_not_wake :
    (run [Action.runHub Expose, Action.runHub Expose, Action.runHub Expose,
          Action.stopHub, Action.runHub Expose]
        (Sys.init { displayOpens := true, visualMatches := true })).blocked ∧
    (step Action.stopHub
      (run [Action.runHub Expose, Action.runHub Expose, Action.runHub Expose,
            Action.stopHub, Action.runHub Expose]
        (Sys.init { displayOpens := true, visualMatches := true }))).blocked ∧
    (step Action.stopHub
      (run [Action.runHub Expose, Action.runHub Expose, Action.runHub Expose,
            Action.stopHub, Action.runHub Expose]
        (Sys.init { displayOpens := true, visualMatches := true }))).hub.cond.signals = 1 ∧
    ∀ es : List Int,
      (run (es.map Action.runHub) (step Action.stopHub
        (run [Action.runHub Expose, Action.runHub Expose, Action.runHub Expose,
              Action.stopHub, Action.runHub Expose]
          (Sys.init { displayOpens := true, visualMatches := true })))).pc = Pc.condWait := by
  have hb : (step Action.stopHub
      (run [Action.runHub Expose, Action.runHub Expose, Action.runHub Expose,
            Action.stopHub, Action.runHub Expose]
        (Sys.init { displayOpens := true, visualMatches := true }))).blocked := by decide
  refine ⟨by decide, hb, by decide, ?_⟩
  intro es
  rw [run_render_blocked es _ hb]
  exact hb.1

/-- The path on which `stopHub` does end the wait: if the render thread is blocked and
`stopHub` is called while `shouldQuit` is still false, the call signals and the
thread is no longer blocked; and in every schedule that follows, whatever the other
threads do, whatever events arrive and whatever `shouldShowAll` is, once the render
thread has run four segments (leave the wait, consume one event, snapshot, quit
check) `runHub` has returned 0, nothing more has been painted, and the teardown has
been run on the handles held (which leaves none of those acquired by setup). -/
theorem stopHub_wakes_blocked_loop (s : Sys) (hb : s.blocked)
    (hq : s.hub.ctrlState.shouldQuit = 0) (acts : List Action)
    (hn : 4 ≤ runHubSegments acts) :
    ¬ (step Action.stopHub s).blocked ∧
    (step Action.stopHub s).hub.cond.signals = s.hub.cond.signals + 1 ∧
    (run acts (step Action.stopHub s)).pc = Pc.returned 0 ∧
    (run acts (step Action.stopHub s)).cr.painted = s.cr.painted ∧
    (run acts (step Action.stopHub s)).held = teardown s.held ∧
    teardown setupResources = [] := by
  have hph : quitPhase s.cr.painted s.held (step Action.stopHub s) := by
    simp [quitPhase, step, stopHub, hq, hb.1, pthread_cond_signal]
  obtain ⟨k1, k2⟩ := quitPhase_run _ _ acts _ hph
  have hr : segmentsToReturn (run acts (step Action.stopHub s)).pc = 0 := by
    have : segmentsToReturn (step Action.stopHub s).pc = 4 := by
      simp [step, hb.1, segmentsToReturn]
    omega
  obtain ⟨r1, r2, r3⟩ := quitPhase_returned _ _ _ k1 hr
  refine ⟨?_, ?_, r1, r2, r3, by decide⟩
  · simp [Sys.blocked, step, stopHub, hq, pthread_cond_signal]
  · simp [step, stopHub, hq, pthread_cond_signal]

/-- Instance of the path above: a fresh hub whose render thread has gone to sleep, then
`stopHub`, then four render segments with an `Expose` event. -/
theorem stopHub_wakes_blocked_loop_witness :
    (run [Action.runHub Expose, Action.runHub Expose, Action.runHub Expose,
          Action.runHub Expose]
      (Sys.init { displayOpens := true, visualMatches := true })).blocked ∧
    (run [Action.runHub Expose, Action.runHub Expose, Action.runHub Expose,
          Action.runHub Expose]
      (step Action.stopHub
        (run [Action.runHub Expose, Action.runHub Expose, Action.runHub Expose,
              Action.runHub Expose]
          (Sys.init { displayOpens := true, visualMatches := true })))).pc = Pc.returned 0 :=
  ⟨by decide,
   (stopHub_wakes_blocked_loop
      (run [Action.runHub Expose, Action.runHub Expose, Action.runHub Expose,
            Action.runHub Expose]
        (Sys.init { displayOpens := true, visualMatches := true }))
      (by decide) (by decide)
      [Action.runHub Expose, Action.runHub Expose, Action.runHub Expose,
       Action.runHub Expose] (by decide)).2.2.1⟩

/-! ## C8: how the loop is left -/

theorem loopInv_init (env : XEnv) : loopInv (Sys.init env) := by
  simp [loopInv, Sys.init]

theorem loopInv_step (a : Action) (s : Sys) (h : loopInv s) : loopInv (step a s) := by
  cases a with
  | runHub e =>
    cases hk : s.pc with
    | entry =>
      cases h1 : s.env.displayOpens <;> cases h2 : s.env.visualMatches <;>
        simp [step, runHubStep, hk, loopInv, h1, h2]
    | loopTop => simp [step, runHubStep, hk, loopInv]
    | quitCheck c =>
      simp only [loopInv, hk] at h
      by_cases hq : c.shouldQuit = 0
      · simp [step, runHubStep, hk, loopInv, hq]
      · simp [step, runHubStep, hk, loopInv, hq, h]
    | waitCheck c =>
      by_cases hs : c.shouldShowAll = 0 <;> simp [step, runHubStep, hk, loopInv, hs]
    | condWait =>
      cases hw : s.hub.cond.waiting <;> simp [step, runHubStep, hk, loopInv, hw]
    | nextEvent =>
      by_cases he : e = KeyPress <;> simp [step, runHubStep, hk, loopInv, he]
    | returned st =>
      simp only [loopInv, hk] at h
      simpa [step, runHubStep, hk, loopInv] using h
  | _ =>
    cases hk : s.pc <;> simp only [loopInv, hk] at h <;> simp only [step, loopInv, hk] <;>
      exact h

theorem loopInv_run (acts : List Action) (s : Sys) (h : loopInv s) : loopInv (run acts s) := by
  induction acts generalizing s with
  | nil => exact h
  | cons a as ih => exact ih (step a s) (loopInv_step a s h)

/-- C8 as stated fails: with `shouldShowAll` set on a fresh hub the render thread
sets up, takes the snapshot (1, 0), paints, skips the wait and reads a `KeyPress`;
`runHub` has then returned 0 and the only, hence last, snapshot it took has
`shouldQuit` false. -/
theorem keyPress_ends_loop_without_quit :
    (run [Action.showHubModules, Action.runHub Expose, Action.runHub Expose,
          Action.runHub Expose, Action.runHub Expose, Action.runHub KeyPress]
      (Sys.init { displayOpens := true, visualMatches := true })).pc = Pc.returned 0 ∧
    (run [Action.showHubModules, Action.runHub Expose, Action.runHub Expose,
          Action.runHub Expose, Action.runHub Expose, Action.runHub KeyPress]
      (Sys.init { displayOpens := true, visualMatches := true })).snapshots
        = [{ shouldShowAll := 1, shouldQuit := 0 }] ∧
    (run [Action.showHubModules, Action.runHub Expose, Action.runHub Expose,
          Action.runHub Expose, Action.runHub Expose, Action.runHub KeyPress]
      (Sys.init { displayOpens := true, visualMatches := true })).held = [] := by
  decide

/-- C8 amended: the loop is left only through the quit check or through a key
press: for every schedule run from a fresh hub that ends with `runHub` returned 0,
either the last snapshot taken had `shouldQuit` true or the last event consumed was
a `KeyPress`. -/
theorem loop_exit_cause (env : XEnv) (acts : List Action)
    (hret : (run acts (Sys.init env)).pc = Pc.returned 0) :
    (∃ c, (run acts (Sys.init env)).snapshots.getLast? = some c ∧ c.shouldQuit ≠ 0) ∨
    (run acts (Sys.init env)).events.getLast? = some KeyPress := by
  have h := loopInv_run acts (Sys.init env) (loopInv_init env)
  simp only [loopInv, hret] at h
  exact h trivial

/-- Witness for C8 amended: quit requested before the first snapshot. -/
theorem loop_exit_cause_witness :
    (run [Action.stopHub, Action.runHub Expose, Action.runHub Expose, Action.runHub Expose]
      (Sys.init { displayOpens := true, visualMatches := true })).pc = Pc.returned 0 ∧
    ((∃ c, (run [Action.stopHub, Action.runHub Expose, Action.runHub Expose,
                 Action.runHub Expose]
        (Sys.init { displayOpens := true, visualMatches := true })).snapshots.getLast?
          = some c ∧ c.shouldQuit ≠ 0) ∨
      (run [Action.stopHub, Action.runHub Expose, Action.runHub Expose, Action.runHub Expose]
        (Sys.init { displayOpens := true, visualMatches := true })).events.getLast?
          = some KeyPress) :=
  ⟨by decide,
   loop_exit_cause { displayOpens := true, visualMatches := true }
     [Action.stopHub, Action.runHub Expose, Action.runHub Expose, Action.runHub Expose]
     (by decide)⟩

end Lattice
